import Mathlib

/-!
Shallow embedding of the jobd daemon (src/clone.go, src/jobs.go, src/job.go)
and proofs about its specified behaviour.

Byte strings travelling through the 9P write/read callbacks are modelled as
`List Char`.  The external cron-expression evaluator (gorhill/cronexpr) is
modelled as an abstract, deterministic oracle `cronOk : List Char → Bool`
telling whether an expression parses; the daemon treats the expression as
opaque otherwise.  Wall-clock timestamps produced by `time.Now()` are
abstract `List Char` parameters at each push site.
-/

namespace Jobd

/-- ASCII lowercasing of one character; embeds the effect of Go's
`strings.ToLower` on the ASCII payloads the ctl file understands. -/
def toLowerChar (c : Char) : Char :=
  if 'A' ≤ c ∧ c ≤ 'Z' then Char.ofNat (c.toNat + 32) else c

/-- Lowercase a byte string, as `strings.ToLower(string(data))` in the ctl writer. -/
def strLower (s : List Char) : List Char := s.map toLowerChar

/-- Constant `STOPPED` of src/job.go. -/
def STOPPED : List Char := "stopped".toList

/-- Constant `STOP` of src/job.go. -/
def STOP : List Char := "stop".toList

/-- Constant `STARTED` of src/job.go. -/
def STARTED : List Char := "started".toList

/-- Constant `START` of src/job.go. -/
def START : List Char := "start".toList

/-- Errors surfaced by the daemon to 9P clients (src error values). -/
inductive JErr where
  /-- `invalid job definition: <data>` from clonefile.Write. -/
  | invalidDefinition (data : List Char)
  /-- `invalid job name: <name>` from mkJobDefinition. -/
  | invalidName (name : List Char)
  /-- parse error returned by `cronexpr.Parse` inside mkJobDefinition. -/
  | badSchedule (sched : List Char)
  /-- `Eexist` from the tree add of a job directory whose name is taken. -/
  | duplicateName (name : List Char)
  /-- `unknown command: <cmd>` from the ctl writer. -/
  | unknownCommand (cmd : List Char)
  /-- `srv.Eperm` from the schedule/cmd/log writers. -/
  | permissionDenied
  /-- error from `os.OpenFile` on the definitions log. -/
  | openFailed
  deriving DecidableEq

/-- The `jobdef` struct of src/job.go. -/
structure jobdef where
  name : List Char
  schedule : List Char
  cmd : List Char
  state : List Char
  deriving DecidableEq

/-- One character of the Go regexp class `[[:word:]]`, i.e. `[0-9A-Za-z_]`. -/
def isWordChar (c : Char) : Bool :=
  ('a' ≤ c && c ≤ 'z') || ('A' ≤ c && c ≤ 'Z') || ('0' ≤ c && c ≤ '9') || c == '_'

/-- `mkJobDefinition` of src/job.go: reject a name in which
`regexp.MatchString("[^[:word:]]", name)` finds a non-word character, then
reject a schedule the cron evaluator cannot parse, else build the jobdef in
state STOPPED. -/
def mkJobDefinition (cronOk : List Char → Bool) (name schedule cmd : List Char) :
    Except JErr jobdef :=
  if name.any (fun c => !(isWordChar c)) then .error (.invalidName name)
  else if cronOk schedule then .ok ⟨name, schedule, cmd, STOPPED⟩
  else .error (.badSchedule schedule)

/-- Ring-history state: `container/ring` of size 32 viewed from the current
cursor; slot 0 is the next slot to be written (the oldest live entry once the
ring has wrapped).  `ring.New(32)` yields 32 nil slots. -/
def histInit : List (Option (List Char)) := List.replicate 32 none

/-- `r.Value = e; r = r.Next()`: write the entry at the cursor, then advance,
which in the cursor-relative view rotates the ring one slot left. -/
def histPush (h : List (Option (List Char))) (e : List Char) :
    List (Option (List Char)) :=
  h.tail ++ [some e]

/-- The non-nil entries visited by `ring.Do` starting at the cursor, i.e. the
live history oldest first. -/
def histSnapshot (h : List (Option (List Char))) : List (List Char) :=
  h.filterMap id

/-- The log jobfile reader of mkJob: `history.Do` appending the bytes of every
non-nil slot. -/
def logRead (h : List (Option (List Char))) : List Char :=
  (histSnapshot h).flatten

/-- Runtime job object: the `job` struct of src/job.go.  `task` is true while
the goroutine spawned as `go job.run()` is running and has not returned. -/
structure JobM where
  defn : jobdef
  task : Bool
  history : List (Option (List Char))
  deriving DecidableEq

/-- `mkJob` of src/job.go: fresh job with the given definition, a fresh done
channel and `ring.New(32)`; no scheduler goroutine yet. -/
def mkJobM (jd : jobdef) : JobM :=
  { defn := jd, task := false, history := histInit }

/-- The ctl jobfile reader: the current state string. -/
def ctlRead (j : JobM) : List Char := j.defn.state

/-- The cmd jobfile reader: the command verbatim. -/
def cmdRead (j : JobM) : List Char := j.defn.cmd

/-- The ctl jobfile writer of mkJob.  `stop` on a non-STOPPED job sets the
state and hands `true` to the done channel: the handoff is synchronous, the
scheduler goroutine receives it at its select, pushes the
`<now>:completed\n` entry and returns, so that push and the goroutine exit
are folded into this step (`ts` is the abstract `time.Now()` string).
`start` on a non-STARTED job sets the state and spawns `go job.run()`, whose
first action is pushing `<now>:started\n`.  Any other payload is rejected. -/
def ctlWrite (ts : List Char) (j : JobM) (data : List Char) :
    JobM × Nat × Option JErr :=
  let cmd := strLower data
  if cmd = STOP then
    if j.defn.state ≠ STOPPED then
      ({ defn := { j.defn with state := STOPPED }, task := false,
         history := histPush j.history (ts ++ (":completed\n".toList)) },
       data.length, none)
    else (j, data.length, none)
  else if cmd = START then
    if j.defn.state ≠ STARTED then
      ({ defn := { j.defn with state := STARTED }, task := true,
         history := histPush j.history (ts ++ (":started\n".toList)) },
       data.length, none)
    else (j, data.length, none)
  else (j, 0, some (.unknownCommand cmd))

/-- The schedule jobfile writer: `return 0, srv.Eperm`, touching nothing. -/
def schedWrite (j : JobM) (_data : List Char) : JobM × Nat × Option JErr :=
  (j, 0, some .permissionDenied)

/-- The cmd jobfile writer: `return 0, srv.Eperm`, touching nothing. -/
def cmdWrite (j : JobM) (_data : List Char) : JobM × Nat × Option JErr :=
  (j, 0, some .permissionDenied)

/-- The log jobfile writer: `return 0, srv.Eperm`, touching nothing. -/
def logWrite (j : JobM) (_data : List Char) : JobM × Nat × Option JErr :=
  (j, 0, some .permissionDenied)

/-- `jobfile.Read` of src/job.go on content `cont`: if `offset >
uint64(len(cont))` deliver nothing and report 0; otherwise `contout :=
cont[offset:]`, `copy(buf, contout)` into the client buffer of size `max`,
and report `len(contout)`.  Result: (bytes actually placed in the buffer,
count returned to the library). -/
def jobfileRead (cont : List Char) (offset max : Nat) : List Char × Nat :=
  if cont.length < offset then ([], 0)
  else ((cont.drop offset).take max, (cont.drop offset).length)

/-- The registry: the children of the `/jobs` directory in insertion order,
each carrying its job object. -/
abbrev Registry := List (List Char × JobM)

/-- `jobsdir.addJob` of src/jobs.go.  `mkJob` builds the job subtree (its four
child files carry distinct fresh names, so those adds cannot fail), then
`job.Add(&jd.File, def.name, ...)` inserts the job directory under `/jobs`.
Modelled from the spec: the duplicate rejection lives in the vendored go9p
`srv.File.Add`, which is not under src/; per §4.E nodes are added via an add
operation "which fails if `name` already exists under `parent`". -/
def addJob (reg : Registry) (jd : jobdef) : Registry × Option JErr :=
  if reg.any (fun p => p.1 == jd.name) then (reg, some (.duplicateName jd.name))
  else (reg ++ [(jd.name, mkJobM jd)], none)

/-- The parsing/validation stage of `clonefile.Write` (src/clone.go lines
41-49): split the payload on `:`; unless that yields exactly three fields,
fail; otherwise run `mkJobDefinition` on them. -/
def cloneParse (cronOk : List Char → Bool) (data : List Char) :
    Except JErr jobdef :=
  match data.splitOn ':' with
  | [n, s, c] => mkJobDefinition cronOk n s c
  | _ => .error (.invalidDefinition data)

/-- Daemon state visible to the clone path: the `/jobs` registry and the
lines of the definitions log file. -/
structure Sys where
  reg : Registry
  log : List (List Char)

/-- `clonefile.Write` of src/clone.go.  After a successful parse and
registration it appends `<data>\n` to the definitions log: `os.OpenFile`
failure (`openOk = false`) is returned to the client, while the error result
of `fmt.Fprintf` (`writeOk = false`) is discarded, as is the `Close` error.
Returns the new state, the consumed byte count and the error. -/
def clonefileWrite (cronOk : List Char → Bool) (openOk writeOk : Bool)
    (sys : Sys) (data : List Char) : Sys × Nat × Option JErr :=
  match cloneParse cronOk data with
  | .error e => (sys, 0, some e)
  | .ok jd =>
    match addJob sys.reg jd with
    | (reg1, some e) => ({ sys with reg := reg1 }, data.length, some e)
    | (reg1, none) =>
      if openOk then
        ({ reg := reg1, log := if writeOk then sys.log ++ [data] else sys.log },
         data.length, none)
      else ({ sys with reg := reg1 }, data.length, some .openFailed)

/-- Stated from the spec sentence behind C1, with the amendment: the clone
payload is invalid when it does not split on `:` into exactly three fields,
or the name field contains a character outside `[A-Za-z0-9_]`, or the
schedule field does not parse as a cron expression. -/
def specInvalidDef (cronOk : List Char → Bool) (data : List Char) : Bool :=
  let parts := data.splitOn ':'
  decide (parts.length ≠ 3) ||
    (parts.getD 0 []).any (fun c => !(isWordChar c)) ||
    !(cronOk (parts.getD 1 []))

/-- The error kinds the spec groups under `invalid-definition`: payload does
not split into three fields, or name or schedule rejected. -/
def isValidationErr : JErr → Bool
  | .invalidDefinition _ => true
  | .invalidName _ => true
  | .badSchedule _ => true
  | _ => false

/-- One step of a job's evolution: a ctl write (src/job.go ctl writer), or
one iteration of the scheduler goroutine `(*job).run` (src/job.go lines
193-225), which can fire the command successfully (push
`<now>:<stdout>`), fire it unsuccessfully (`continue`, no push), or find the
schedule unparseable and return without transitioning state. -/
inductive JStep (cronOk : List Char → Bool) : JobM → JobM → Prop where
  | ctl (ts data : List Char) (j : JobM) :
      JStep cronOk j (ctlWrite ts j data).1
  | fire (ts out : List Char) (j : JobM) (ht : j.task = true)
      (hp : cronOk j.defn.schedule = true) :
      JStep cronOk j { j with history := histPush j.history (ts ++ [':'] ++ out) }
  | fireFail (j : JobM) (ht : j.task = true)
      (hp : cronOk j.defn.schedule = true) :
      JStep cronOk j j
  | parseFail (j : JobM) (ht : j.task = true)
      (hp : cronOk j.defn.schedule = false) :
      JStep cronOk j { j with task := false }

/-- Jobs reachable from `a` by any sequence of steps. -/
inductive Reach (cronOk : List Char → Bool) (a : JobM) : JobM → Prop where
  | refl : Reach cronOk a a
  | step {b c : JobM} : Reach cronOk a b → JStep cronOk b c → Reach cronOk a c

/-- Induction invariant for C2: the scheduler-task flag tracks the STARTED
state, and the (immutable) schedule stays what it was at creation. -/
def JInv (s : List Char) (j : JobM) : Prop :=
  (j.task = true ↔ j.defn.state = STARTED) ∧ j.defn.schedule = s

/-- Whitespace characters relevant to ctl payload trimming. -/
def isSpaceChar (c : Char) : Bool :=
  c == ' ' || c == '\t' || c == '\n' || c == '\r'

/-- Sample cron oracle for concrete instances: exactly the standard
every-minute expression parses. -/
def cron1 : List Char → Bool := fun s => s == ("* * * * *".toList)

/-- Sample job definition, as produced by `mkJobDefinition`. -/
def jd1 : jobdef :=
  { name := "a".toList, schedule := "* * * * *".toList,
    cmd := "true".toList, state := STOPPED }

/-- Sample freshly created job. -/
def sampleJob : JobM := mkJobM jd1

/-- Sample system state whose registry already holds a job named `a`. -/
def sys1 : Sys := { reg := [("a".toList, sampleJob)], log := [] }

/-- The sample job after a successful `start`: state STARTED, scheduler task
running, the started entry in history. -/
def startedJob : JobM := (ctlWrite ("t0".toList) sampleJob ("start".toList)).1

/-! ### Shared lemmas -/

/-- A ctl payload that lowercases to neither `stop` nor `start` falls into
the default branch: unknown-command error, nothing consumed, job untouched. -/
theorem ctlWrite_not_command (ts : List Char) (j : JobM) (data : List Char)
    (h1 : strLower data ≠ STOP) (h2 : strLower data ≠ START) :
    ctlWrite ts j data = (j, 0, some (JErr.unknownCommand (strLower data))) := by
  simp [ctlWrite, h1, h2]

/-- A `stop` write on a job that is not STOPPED transitions it. -/
theorem ctlWrite_stop_fresh (ts : List Char) (j : JobM) (data : List Char)
    (h : strLower data = STOP) (hs : j.defn.state ≠ STOPPED) :
    ctlWrite ts j data =
      ({ defn := { j.defn with state := STOPPED }, task := false,
         history := histPush j.history (ts ++ (":completed\n".toList)) },
       data.length, none) := by
  simp [ctlWrite, h, hs]

/-- A `stop` write on a STOPPED job is a successful no-op. -/
theorem ctlWrite_stop_already (ts : List Char) (j : JobM) (data : List Char)
    (h : strLower data = STOP) (hs : j.defn.state = STOPPED) :
    ctlWrite ts j data = (j, data.length, none) := by
  simp [ctlWrite, h, hs]

/-- A `start` write on a job that is not STARTED transitions it and spawns
the scheduler goroutine. -/
theorem ctlWrite_start_fresh (ts : List Char) (j : JobM) (data : List Char)
    (h : strLower data = START) (hs : j.defn.state ≠ STARTED) :
    ctlWrite ts j data =
      ({ defn := { j.defn with state := STARTED }, task := true,
         history := histPush j.history (ts ++ (":started\n".toList)) },
       data.length, none) := by
  simp [ctlWrite, h, hs, (show ¬ (START = STOP) by decide)]

/-- A `start` write on a STARTED job is a successful no-op. -/
theorem ctlWrite_start_already (ts : List Char) (j : JobM) (data : List Char)
    (h : strLower data = START) (hs : j.defn.state = STARTED) :
    ctlWrite ts j data = (j, data.length, none) := by
  simp [ctlWrite, h, hs, (show ¬ (START = STOP) by decide),
    (show ¬ (STARTED = STOPPED) by decide)]

/-- Pushing into the ring never empties it. -/
theorem histPush_ne_nil (h : List (Option (List Char))) (e : List Char) :
    histPush h e ≠ [] := by simp [histPush]

/-- Each push writes at the cursor and rotates, so a sequence of pushes into
a non-empty ring is the tail-end view of the initial ring followed by the
pushed entries. -/
theorem foldl_histPush (es : List (List Char)) :
    ∀ l : List (Option (List Char)), l ≠ [] →
      es.foldl histPush l = (l ++ es.map some).drop es.length := by
  induction es with
  | nil => intro l _; simp
  | cons e es ih =>
    intro l hl
    obtain ⟨x, l2, rfl⟩ := List.exists_cons_of_ne_nil hl
    rw [List.foldl_cons, ih (histPush (x :: l2) e) (histPush_ne_nil _ _)]
    simp [histPush, List.drop_succ_cons, List.append_assoc]

/-- Empty slots contribute nothing to the snapshot. -/
theorem filterMap_id_replicate_none (k : Nat) :
    (List.replicate k (none : Option (List Char))).filterMap id = [] := by
  induction k with
  | zero => rfl
  | succ n ih => simp [List.replicate_succ, ih]

/-- Live slots are kept verbatim by the snapshot. -/
theorem filterMap_id_map_some (es : List (List Char)) :
    (es.map some).filterMap id = es := by
  induction es with
  | nil => rfl
  | cons e es ih => simp [ih]

/-- After pushing `es` into a fresh ring, the snapshot is the last 32 (or
fewer) entries in insertion order. -/
theorem hist_snapshot_eq (es : List (List Char)) :
    histSnapshot (es.foldl histPush histInit) = es.drop (es.length - 32) := by
  rw [foldl_histPush es histInit (by decide), histSnapshot, histInit]
  rw [List.drop_append_eq_append_drop, List.drop_replicate, List.filterMap_append,
    filterMap_id_replicate_none, ← List.map_drop, filterMap_id_map_some]
  simp [List.length_replicate]

/-! ### C3 -/

/-- C3 (counter-evidence): `jobfile.Read` on the ctl file of a fresh job
(content `stopped`, 7 bytes) at offset 0 with a 3-byte client buffer places
3 bytes in the buffer yet reports a count of 7, exceeding the requested
maximum, so the returned count is not the number of bytes delivered. -/
theorem c3_read_reports_more_than_max :
    (jobfileRead (ctlRead sampleJob) 0 3).1.length = 3 ∧
    (jobfileRead (ctlRead sampleJob) 0 3).2 = 7 ∧
    ¬ (jobfileRead (ctlRead sampleJob) 0 3).2 ≤ 3 := by decide

/-! ### C7 -/

/-- C7: any ctl payload that is not case-insensitively `start` or `stop`
yields the unknown-command error, consumes nothing and leaves the job (its
state, history and scheduler task) unchanged. -/
theorem c7_ctl_unknown_command (ts : List Char) (j : JobM) (data : List Char)
    (h1 : strLower data ≠ STOP) (h2 : strLower data ≠ START) :
    ctlWrite ts j data = (j, 0, some (JErr.unknownCommand (strLower data))) :=
  ctlWrite_not_command ts j data h1 h2

/-- Witness for C7 at the concrete payload `restart`. -/
theorem c7_witness :
    ctlWrite [] sampleJob ("restart".toList) =
      (sampleJob, 0, some (JErr.unknownCommand (strLower ("restart".toList)))) :=
  c7_ctl_unknown_command [] sampleJob ("restart".toList) (by decide) (by decide)

/-! ### C8 -/

/-- C8: a write of any payload to the schedule, cmd or log file fails with
permission-denied, consumes zero bytes, and leaves the job object (hence its
definition, state, history and scheduler task) unchanged. -/
theorem c8_readonly_writes_rejected (j : JobM) (data : List Char) :
    schedWrite j data = (j, 0, some JErr.permissionDenied) ∧
    cmdWrite j data = (j, 0, some JErr.permissionDenied) ∧
    logWrite j data = (j, 0, some JErr.permissionDenied) :=
  ⟨rfl, rfl, rfl⟩

/-! ### C9 -/

/-- C9: writing `start` (case-insensitively) to a job already STARTED, or
`stop` to a job already STOPPED, succeeds consuming the whole payload and
changes nothing (no state change, no history entry, no new scheduler task);
consequently two consecutive identical start or stop writes have the same
effect as one. -/
theorem c9_ctl_idempotent (ts : List Char) (j : JobM) (data : List Char) :
    (strLower data = START → j.defn.state = STARTED →
      ctlWrite ts j data = (j, data.length, none)) ∧
    (strLower data = STOP → j.defn.state = STOPPED →
      ctlWrite ts j data = (j, data.length, none)) ∧
    (strLower data = START ∨ strLower data = STOP →
      ctlWrite ts (ctlWrite ts j data).1 data =
        ((ctlWrite ts j data).1, data.length, none)) := by
  refine ⟨ctlWrite_start_already ts j data, ctlWrite_stop_already ts j data, ?_⟩
  rintro (h | h)
  · by_cases hst : j.defn.state = STARTED
    · rw [ctlWrite_start_already ts j data h hst]
      exact ctlWrite_start_already ts j data h hst
    · rw [ctlWrite_start_fresh ts j data h hst]
      exact ctlWrite_start_already ts _ data h rfl
  · by_cases hst : j.defn.state = STOPPED
    · rw [ctlWrite_stop_already ts j data h hst]
      exact ctlWrite_stop_already ts j data h hst
    · rw [ctlWrite_stop_fresh ts j data h hst]
      exact ctlWrite_stop_already ts _ data h rfl

/-- Witness for C9: a started job absorbs a second `START`, a fresh
(stopped) job absorbs a `stop`, and a double `start` equals a single one. -/
theorem c9_witness :
    ctlWrite [] startedJob ("START".toList) =
      (startedJob, ("START".toList).length, none) ∧
    ctlWrite [] sampleJob ("stop".toList) =
      (sampleJob, ("stop".toList).length, none) ∧
    ctlWrite [] (ctlWrite [] sampleJob ("start".toList)).1 ("start".toList) =
      ((ctlWrite [] sampleJob ("start".toList)).1, ("start".toList).length, none) :=
  ⟨(c9_ctl_idempotent [] startedJob ("START".toList)).1 (by decide) (by decide),
   (c9_ctl_idempotent [] sampleJob ("stop".toList)).2.1 (by decide) (by decide),
   (c9_ctl_idempotent [] sampleJob ("start".toList)).2.2 (Or.inl (by decide))⟩

/-! ### C10 -/

/-- C10: the ctl comparison is exact equality after lowercasing, with no
trimming: any payload containing a whitespace character (in particular one
with leading or trailing whitespace or a terminating newline, whose trimmed
form would be a valid command) fails with unknown-command and changes no
state. -/
theorem c10_ctl_no_trimming (ts : List Char) (j : JobM) (data : List Char)
    (h : data.any isSpaceChar = true) :
    ctlWrite ts j data = (j, 0, some (JErr.unknownCommand (strLower data))) := by
  obtain ⟨c, hc, hsp⟩ := List.any_eq_true.mp h
  have hsp2 : ((c = ' ' ∨ c = '\t') ∨ c = '\n') ∨ c = '\r' := by
    simpa [isSpaceChar] using hsp
  have hmem : toLowerChar c ∈ strLower data :=
    List.mem_map_of_mem toLowerChar hc
  apply ctlWrite_not_command
  · intro heq
    rw [heq] at hmem
    rcases hsp2 with ((rfl | rfl) | rfl) | rfl <;> exact absurd hmem (by decide)
  · intro heq
    rw [heq] at hmem
    rcases hsp2 with ((rfl | rfl) | rfl) | rfl <;> exact absurd hmem (by decide)

/-- Witness for C10 at the concrete payload `start` followed by a newline. -/
theorem c10_witness :
    ctlWrite [] sampleJob ("start\n".toList) =
      (sampleJob, 0, some (JErr.unknownCommand (strLower ("start\n".toList)))) :=
  c10_ctl_no_trimming [] sampleJob ("start\n".toList) (by decide)

/-! ### C4 -/

/-- C4: for every sequence of pushes into a job's fresh ring history, the
history holds at most 32 entries (exactly `min N 32` after `N` pushes), the
snapshot is the last `min N 32` pushed entries in insertion order oldest
first with empty slots skipped, and reading the job's log file returns their
concatenation. -/
theorem c4_history_last32 (es : List (List Char)) :
    (histSnapshot (es.foldl histPush histInit)).length = min es.length 32 ∧
    (histSnapshot (es.foldl histPush histInit)).length ≤ 32 ∧
    histSnapshot (es.foldl histPush histInit) = es.drop (es.length - 32) ∧
    logRead (es.foldl histPush histInit) = (es.drop (es.length - 32)).flatten := by
  have hs := hist_snapshot_eq es
  refine ⟨?_, ?_, hs, ?_⟩
  · rw [hs, List.length_drop]; omega
  · rw [hs, List.length_drop]; omega
  · rw [logRead, hs]

/-! ### C1 -/

/-- A parse/validation failure makes the clone write return the error with
zero bytes consumed and the system untouched. -/
theorem clonefileWrite_parse_err (cronOk : List Char → Bool)
    (openOk writeOk : Bool) (sys : Sys) (data : List Char) (e : JErr)
    (h : cloneParse cronOk data = .error e) :
    clonefileWrite cronOk openOk writeOk sys data = (sys, 0, some e) := by
  simp [clonefileWrite, h]

/-- C1 (counterexample to the claim as stated): the payload
`:* * * * *:true` has an empty name field, which the claim requires to be
rejected as not matching `[A-Za-z0-9_]+`, yet the write succeeds: no error
is returned and a job whose name is the empty string is registered. -/
theorem c1_counterexample :
    (clonefileWrite cron1 true true ⟨[], []⟩ (":* * * * *:true".toList)).2.2 =
      none ∧
    (clonefileWrite cron1 true true ⟨[], []⟩
        (":* * * * *:true".toList)).1.reg.map Prod.fst = [[]] := by
  decide

/-- C1 (amended): a clone write fails with an invalid-definition-family
error, consumes nothing and creates no job exactly when the payload does not
split on `:` into exactly three fields, or the name field contains a
character outside `[A-Za-z0-9_]` (an empty name is accepted), or the
schedule field does not parse as a cron expression; otherwise a
JobDefinition carrying exactly the three fields (in state STOPPED) is
constructed. -/
theorem c1_clone_validation (cronOk : List Char → Bool) (openOk writeOk : Bool)
    (sys : Sys) (data : List Char) :
    (specInvalidDef cronOk data = true →
      ∃ e, clonefileWrite cronOk openOk writeOk sys data = (sys, 0, some e) ∧
        isValidationErr e = true) ∧
    (specInvalidDef cronOk data = false →
      cloneParse cronOk data = .ok
        { name := (data.splitOn ':').getD 0 [],
          schedule := (data.splitOn ':').getD 1 [],
          cmd := (data.splitOn ':').getD 2 [], state := STOPPED }) := by
  have key :
      (specInvalidDef cronOk data = true →
        ∃ e, cloneParse cronOk data = .error e ∧ isValidationErr e = true) ∧
      (specInvalidDef cronOk data = false →
        cloneParse cronOk data = .ok
          { name := (data.splitOn ':').getD 0 [],
            schedule := (data.splitOn ':').getD 1 [],
            cmd := (data.splitOn ':').getD 2 [], state := STOPPED }) := by
    rcases hsplit : data.splitOn ':' with _ | ⟨n, _ | ⟨s, _ | ⟨c, _ | rest⟩⟩⟩ <;>
      simp [cloneParse, specInvalidDef, hsplit, isValidationErr]
    constructor
    · intro h
      rcases h with h | h
      · refine ⟨.invalidName n, ?_, rfl⟩
        simp [mkJobDefinition, h]
      · by_cases h1 : n.any (fun c => !(isWordChar c))
        · refine ⟨.invalidName n, ?_, rfl⟩
          simp [mkJobDefinition, h1]
        · refine ⟨.badSchedule s, ?_, rfl⟩
          simp only [List.any_eq_true, Bool.not_eq_true'] at h1
          simp [mkJobDefinition, h, h1]
    · intro h1 h2
      simp [mkJobDefinition, h1, h2]
      exact h1
  refine ⟨fun h => ?_, key.2⟩
  obtain ⟨e, he, hv⟩ := key.1 h
  exact ⟨e, clonefileWrite_parse_err cronOk openOk writeOk sys data e he, hv⟩

/-- Witness for C1: a name with `~` is rejected untouched; a well-formed
payload parses into exactly its three fields. -/
theorem c1_witness :
    (∃ e, clonefileWrite cron1 true true sys1 ("bad~name:* * * * *:true".toList) =
        (sys1, 0, some e) ∧ isValidationErr e = true) ∧
    cloneParse cron1 ("b:* * * * *:echo hi".toList) = .ok
      { name := (("b:* * * * *:echo hi".toList).splitOn ':').getD 0 [],
        schedule := (("b:* * * * *:echo hi".toList).splitOn ':').getD 1 [],
        cmd := (("b:* * * * *:echo hi".toList).splitOn ':').getD 2 [],
        state := STOPPED } :=
  ⟨(c1_clone_validation cron1 true true sys1 ("bad~name:* * * * *:true".toList)).1
      (by decide),
   (c1_clone_validation cron1 true true sys1 ("b:* * * * *:echo hi".toList)).2
      (by decide)⟩

/-! ### C5 -/

/-- C5: when the parsed definition's name equals the name of an already
registered job, the clone write fails with the duplicate-name error and the
whole system state — the registry with every existing job's object and
subtree, and the definitions log — is returned unchanged, so no second child
with that name appears under `/jobs`. -/
theorem c5_duplicate_name (cronOk : List Char → Bool) (openOk writeOk : Bool)
    (sys : Sys) (data : List Char) (jd : jobdef)
    (hparse : cloneParse cronOk data = .ok jd)
    (hdup : sys.reg.any (fun p => p.1 == jd.name) = true) :
    clonefileWrite cronOk openOk writeOk sys data =
      (sys, data.length, some (JErr.duplicateName jd.name)) := by
  simp [clonefileWrite, hparse, addJob, hdup]

/-- Witness for C5: registering `a` twice; the second write fails with
duplicate-name and leaves the one-entry registry as is. -/
theorem c5_witness :
    clonefileWrite cron1 true true sys1 ("a:* * * * *:echo".toList) =
      (sys1, ("a:* * * * *:echo".toList).length,
        some (JErr.duplicateName ("a".toList))) :=
  c5_duplicate_name cron1 true true sys1 ("a:* * * * *:echo".toList)
    { name := "a".toList, schedule := "* * * * *".toList,
      cmd := "echo".toList, state := STOPPED } rfl (by decide)

/-! ### C6 -/

/-- C6 (counter-evidence): a clone write of a fresh valid definition while
the definitions log opens for append but the underlying file write fails:
the job is registered, the write reports success (no error, full payload
consumed), yet the log gains no line — the error result of `fmt.Fprintf` is
discarded. -/
theorem c6_append_error_ignored :
    (clonefileWrite cron1 true false ⟨[], []⟩ ("a:* * * * *:true".toList)).2.2 =
      none ∧
    (clonefileWrite cron1 true false ⟨[], []⟩
        ("a:* * * * *:true".toList)).1.log = [] ∧
    (clonefileWrite cron1 true false ⟨[], []⟩
        ("a:* * * * *:true".toList)).1.reg.map Prod.fst = ["a".toList] := by
  decide

/-! ### C2 -/

/-- A successful `mkJobDefinition` yields exactly its three fields in state
STOPPED, and only for a schedule the cron evaluator accepts. -/
theorem mkJobDefinition_ok (cronOk : List Char → Bool) (n s c : List Char)
    (jd : jobdef) (h : mkJobDefinition cronOk n s c = .ok jd) :
    jd = ⟨n, s, c, STOPPED⟩ ∧ cronOk s = true := by
  unfold mkJobDefinition at h
  by_cases h1 : n.any (fun c => !(isWordChar c)) <;> simp [h1] at h
  by_cases h2 : cronOk s <;> simp [h2] at h
  exact ⟨h.symm, h2⟩

/-- Every step preserves the C2 invariant, as long as the job's schedule
parses (which rules out the scheduler goroutine dying on a parse failure). -/
theorem jstep_preserves (cronOk : List Char → Bool) (s : List Char)
    (hcron : cronOk s = true) {a b : JobM} (hstep : JStep cronOk a b)
    (hinv : JInv s a) : JInv s b := by
  obtain ⟨hiff, hsched⟩ := hinv
  cases hstep with
  | ctl ts data j =>
    by_cases h1 : strLower data = STOP
    · by_cases h2 : a.defn.state = STOPPED
      · rw [ctlWrite_stop_already ts a data h1 h2]
        exact ⟨hiff, hsched⟩
      · rw [ctlWrite_stop_fresh ts a data h1 h2]
        refine ⟨?_, hsched⟩
        show false = true ↔ STOPPED = STARTED
        decide
    · by_cases h2 : strLower data = START
      · by_cases h3 : a.defn.state = STARTED
        · rw [ctlWrite_start_already ts a data h2 h3]
          exact ⟨hiff, hsched⟩
        · rw [ctlWrite_start_fresh ts a data h2 h3]
          refine ⟨?_, hsched⟩
          show true = true ↔ STARTED = STARTED
          decide
      · rw [ctlWrite_not_command ts a data h1 h2]
        exact ⟨hiff, hsched⟩
  | fire ts out j ht hp => exact ⟨hiff, hsched⟩
  | fireFail j ht hp => exact ⟨hiff, hsched⟩
  | parseFail j ht hp =>
    rw [hsched, hcron] at hp
    cases hp

/-- C2: for every job built from a validated definition, and every job state
reachable from it by ctl writes and scheduler-task steps, the scheduler task
is present (spawned and not yet exited) if and only if the job's state is
STARTED. -/
theorem c2_task_iff_started (cronOk : List Char → Bool) (n s c : List Char)
    (jd : jobdef) (j : JobM)
    (hmk : mkJobDefinition cronOk n s c = .ok jd)
    (hr : Reach cronOk (mkJobM jd) j) :
    j.task = true ↔ j.defn.state = STARTED := by
  obtain ⟨rfl, hcron⟩ := mkJobDefinition_ok cronOk n s c jd hmk
  have hj : JInv s j := by
    induction hr with
    | refl =>
      refine ⟨?_, rfl⟩
      show false = true ↔ STOPPED = STARTED
      decide
    | step hab hstep ih => exact jstep_preserves cronOk s hcron hstep ih
  exact hj.1

/-- Witness for C2: the sample job after one `start` ctl write has its
scheduler task present and its state STARTED. -/
theorem c2_witness :
    startedJob.task = true ↔ startedJob.defn.state = STARTED :=
  c2_task_iff_started cron1 ("a".toList) ("* * * * *".toList) ("true".toList)
    jd1 startedJob rfl
    (Reach.step Reach.refl (JStep.ctl ("t0".toList) ("start".toList) sampleJob))

end Jobd
